import Mathlib

/-!
# Verification of the protein-properties-predictor core pipeline

Shallow embedding of the feature/classification pipeline of the
`protein-properties-predictor` repository:

* `sequence_validator.py` — input validation and normalization;
* `feature_extractor.py` — physicochemical profiling (the secondary-structure
  fractions computed via Biopython's
  `ProteinAnalysis.secondary_structure_fraction`) and the five-way structural
  rule classifier;
* `ml_model.py` — the composition feature encoder, the balanced
  rejection-sampling training-data generator, and the classifier's
  construction/predict paths.

Sequences are modelled as `List Char` (Python `str`), fractions as `ℚ`
(the quantities involved in the verified claims are exact residue-count
ratios; the remaining profile fields — molecular weight, GRAVY, pI,
aromaticity, instability index, charge — are floating-point quantities not
touched by any claim and are not modelled).  Fallible operations return
`Except PPError`, with one constructor per distinct Python exception shape
along the modelled paths.
-/

/-- Errors surfaced along the modelled code paths.

* `invalidSequence s` — the ValueError raised by
  `validate_amino_acid_sequence`, carrying the set of offending characters
  it reports;
* `zeroDivision` — Python ZeroDivisionError from dividing by the sequence
  length (Biopython's `get_amino_acids_percent`, or the residue-frequency
  encoding in `ml_model.py`);
* `modelNotTrained` — the ValueError (Scaler has not been fitted yet)
  raised by `ProteinStructureClassifier.predict` on an unfitted scaler. -/
inductive PPError where
  | invalidSequence (invalid : Finset Char)
  | zeroDivision
  | modelNotTrained
deriving DecidableEq

instance {ε α : Type} [DecidableEq ε] [DecidableEq α] : DecidableEq (Except ε α) :=
  fun x y =>
    match x, y with
    | .error a, .error b =>
      if h : a = b then .isTrue (by rw [h]) else .isFalse (fun hc => h (Except.error.inj hc))
    | .error _, .ok _ => .isFalse (fun hc => Except.noConfusion hc)
    | .ok _, .error _ => .isFalse (fun hc => Except.noConfusion hc)
    | .ok a, .ok b =>
      if h : a = b then .isTrue (by rw [h]) else .isFalse (fun hc => h (Except.ok.inj hc))

/-- Python `str.strip()` whitespace characters (ASCII). -/
def pyIsSpace (c : Char) : Bool :=
  c = ' ' ∨ c = '\t' ∨ c = '\n' ∨ c = '\x0b' ∨ c = '\x0c' ∨ c = '\r'

/-- Python `str.strip()`: drop leading and trailing whitespace. -/
def pyStrip (s : List Char) : List Char :=
  ((s.dropWhile pyIsSpace).reverse.dropWhile pyIsSpace).reverse

/-- Python `str.upper()` (ASCII letters). -/
def pyUpper (s : List Char) : List Char :=
  s.map Char.toUpper

/-- `STANDARD_AMINO_ACIDS` from `sequence_validator.py` (as the underlying
ordered string; the Python source builds a `set` from it). -/
def STANDARD_AMINO_ACIDS : List Char := "ACDEFGHIKLMNPQRSTVWY".toList

/-- `validate_amino_acid_sequence` from `sequence_validator.py`:
strip whitespace, upper-case, and reject if any remaining character is
outside the 20-letter alphabet, reporting the set of offending characters. -/
def validate_amino_acid_sequence (seq : List Char) : Except PPError (List Char) :=
  let cleaned := pyUpper (pyStrip seq)
  let invalid_chars := cleaned.toFinset \ STANDARD_AMINO_ACIDS.toFinset
  if invalid_chars = ∅ then .ok cleaned
  else .error (.invalidSequence invalid_chars)

/-- The five labels of `STRUCTURE_CLASSES` (`ml_model.py`), also the five
branch results of the rule classifier in `feature_extractor.py`. -/
inductive StructureClass where
  | dominantlyAlphaHelical
  | dominantlyBetaSheet
  | alphaBeta
  | alphaPlusBeta
  | unstructuredCoil
deriving DecidableEq, Repr

/-- `STRUCTURE_CLASSES` from `ml_model.py`, in source order. -/
def STRUCTURE_CLASSES : List StructureClass :=
  [.dominantlyAlphaHelical, .dominantlyBetaSheet, .alphaBeta, .alphaPlusBeta,
   .unstructuredCoil]

/-- Helix-propensity residues (Biopython `secondary_structure_fraction`). -/
def helixLetters : List Char := "VIYFWL".toList

/-- Turn-propensity residues (Biopython `secondary_structure_fraction`). -/
def turnLetters : List Char := "NPGS".toList

/-- Sheet-propensity residues (Biopython `secondary_structure_fraction`). -/
def sheetLetters : List Char := "EMAL".toList

/-- Sum of per-residue percentages over a set of letters, as computed by
Biopython's `secondary_structure_fraction` from `get_amino_acids_percent`
(`count(aa) / length` per letter). -/
def aaFractionSum (letters : List Char) (s : List Char) : ℚ :=
  (letters.map (fun c => (s.count c : ℚ) / s.length)).sum

/-- `Bio.SeqUtils.ProtParam.ProteinAnalysis.secondary_structure_fraction`
(external dependency of `feature_extractor.py`): returns the tuple
**(Helix, Turn, Sheet)** of the fractions of residues in `VIYFWL`, `NPGS`
and `EMAL` respectively.  `get_amino_acids_percent` divides each count by
the sequence length, so an empty sequence raises `ZeroDivisionError`. -/
def secondary_structure_fraction (s : List Char) : Except PPError (ℚ × ℚ × ℚ) :=
  if s.length = 0 then .error .zeroDivision
  else .ok (aaFractionSum helixLetters s, aaFractionSum turnLetters s,
            aaFractionSum sheetLetters s)

/-- The five-way threshold policy of `extract_features`
(`feature_extractor.py`, lines 59–68), as a function of the two values the
code names `helix_fraction` and `sheet_fraction`. -/
def classifyByRule (H S : ℚ) : StructureClass :=
  if 1/2 ≤ H ∧ S < 3/10 then .dominantlyAlphaHelical
  else if 1/2 ≤ S ∧ H < 3/10 then .dominantlyBetaSheet
  else if 3/10 ≤ H ∧ H ≤ 1/2 ∧ 3/10 ≤ S ∧ S ≤ 1/2 then .alphaBeta
  else if 3/10 < H ∧ 3/10 < S then .alphaPlusBeta
  else .unstructuredCoil

/-- The claim-relevant fields of the feature dictionary built by
`extract_features`.  The remaining fields (molecular weight, GRAVY, pI,
aromaticity, instability index, charge at pH 7) are floating-point
quantities no claim refers to, and they do not influence any modelled
field. -/
structure Features where
  helix_fraction : ℚ
  sheet_fraction : ℚ
  coil_fraction : ℚ
  sequence_length : Nat
  structure_class : StructureClass
deriving DecidableEq, Repr

/-- `extract_features` from `feature_extractor.py`: validate, compute the
secondary-structure fractions, classify.  The source unpacks Biopython's
`(helix, turn, sheet)` triple as
`helix_fraction, sheet_fraction, coil_fraction` (line 56), so
`sheet_fraction` receives the turn fraction and `coil_fraction` the sheet
fraction; the classifier is then applied to `helix_fraction` and
`sheet_fraction` exactly as in the source. -/
def extract_features (seq : List Char) : Except PPError Features :=
  match validate_amino_acid_sequence seq with
  | .error e => .error e
  | .ok validated_seq =>
    match secondary_structure_fraction validated_seq with
    | .error e => .error e
    | .ok (h, t, sh) =>
      let helix_fraction := h
      let sheet_fraction := t
      let coil_fraction := sh
      .ok { helix_fraction := helix_fraction
            sheet_fraction := sheet_fraction
            coil_fraction := coil_fraction
            sequence_length := validated_seq.length
            structure_class := classifyByRule helix_fraction sheet_fraction }

/-- `AMINO_ACIDS` from `ml_model.py` (canonical alphabet order). -/
def AMINO_ACIDS : List Char := "ACDEFGHIKLMNPQRSTVWY".toList

/-- The residue-frequency vector `[seq.count(aa) / len(seq) for aa in
AMINO_ACIDS]` built at `ml_model.py` lines 42 and 109. -/
def encodeVec (s : List Char) : List ℚ :=
  AMINO_ACIDS.map (fun aa => (s.count aa : ℚ) / s.length)

/-- The composition-encoding operation as invoked on raw input: validate,
then build the frequency vector; a validated empty sequence makes the
Python division raise `ZeroDivisionError`. -/
def encodeOp (seq : List Char) : Except PPError (List ℚ) :=
  match validate_amino_acid_sequence seq with
  | .error e => .error e
  | .ok v => if v.length = 0 then .error .zeroDivision else .ok (encodeVec v)

/-- State of `ProteinStructureClassifier` as observable by `predict`:
either the scaler is unfitted (fresh construction, no persisted pair), or
both scaler and network are fitted.  The fitted scaler-plus-network forward
pass (`scaler.transform`, `model.predict`, argmax, label decoding) is a
floating-point computation abstracted as an arbitrary function from the
feature vector to a label; no claim depends on its values. -/
inductive ClassifierState where
  | fresh
  | trained (net : List ℚ → StructureClass)

/-- `ProteinStructureClassifier.predict` from `ml_model.py`: validate the
raw input, build the residue-frequency vector (dividing by the length —
ZeroDivisionError on an empty validated sequence), then apply the scaler
and network; an unfitted scaler raises the not-trained ValueError. -/
def predict (st : ClassifierState) (sequence : List Char) :
    Except PPError StructureClass :=
  match validate_amino_acid_sequence sequence with
  | .error e => .error e
  | .ok validated_seq =>
    if validated_seq.length = 0 then .error .zeroDivision
    else
      match st with
      | .fresh => .error .modelNotTrained
      | .trained net => .ok (net (encodeVec validated_seq))

/-- Outcome of `ProteinStructureClassifier.__init__` (`ml_model.py` lines
68–88): either the persisted network and scaler are both loaded, or a new
untrained model is created. -/
inductive InitOutcome where
  | loadedPretrained
  | freshModel
deriving DecidableEq

/-- The construction-time persistence decision of
`ProteinStructureClassifier.__init__`: load iff both the network file and
the scaler file exist, otherwise create a new model. -/
def classifierInit (modelFileExists scalerFileExists : Bool) : InitOutcome :=
  if modelFileExists && scalerFileExists then .loadedPretrained else .freshModel

/-- The letter of `AMINO_ACIDS` at a given index — the elementary draw of
`random.choices(AMINO_ACIDS, k=length)`. -/
def aminoAt (i : Fin 20) : Char := AMINO_ACIDS.getD i.val 'A'

/-- `generate_random_sequence` from `ml_model.py`, with the randomness made
explicit: `r` is the stream of uniform draws and `pos` the index of the
next unconsumed draw. -/
def generate_random_sequence (length : Nat) (r : Nat → Fin 20) (pos : Nat) :
    List Char :=
  (List.range length).map (fun i => aminoAt (r (pos + i)))

/-- One per-class rejection-sampling loop of `generate_training_data`
(`while count < samples_per_class`, `ml_model.py` lines 36–45), step-indexed
by `fuel` (the number of loop iterations allowed; the Python loop itself has
no such bound).  Returns the accepted `(feature_vector, assigned_class)`
pairs in generation order together with the next stream position, `none`
when the loop is still running after `fuel` draws, or the Python exception
propagating out of `extract_features`. -/
def fillClass (cls : StructureClass) (length : Nat) (r : Nat → Fin 20) :
    Nat → Nat → Nat →
      Option (Except PPError (List (List ℚ × StructureClass) × Nat))
  | 0, pos, _ => some (.ok ([], pos))
  | _ + 1, _, 0 => none
  | need + 1, pos, fuel + 1 =>
    let sequence := generate_random_sequence length r pos
    match extract_features sequence with
    | .error e => some (.error e)
    | .ok feats =>
      if feats.structure_class = cls then
        match fillClass cls length r need (pos + length) fuel with
        | none => none
        | some (.error e) => some (.error e)
        | some (.ok (rest, pos')) =>
          some (.ok ((encodeVec sequence, feats.structure_class) :: rest, pos'))
      else
        fillClass cls length r (need + 1) (pos + length) fuel

/-- The outer `for structure_class in STRUCTURE_CLASSES` loop of
`generate_training_data`, threading the stream position through the
classes; every class's inner loop gets the step budget `fuel`. -/
def generate_training_data_aux (n length : Nat) (r : Nat → Fin 20) (fuel : Nat) :
    List StructureClass → Nat →
      Option (Except PPError (List (List ℚ × StructureClass)))
  | [], _ => some (.ok [])
  | cls :: rest, pos =>
    match fillClass cls length r n pos fuel with
    | none => none
    | some (.error e) => some (.error e)
    | some (.ok (exs, pos')) =>
      match generate_training_data_aux n length r fuel rest pos' with
      | none => none
      | some (.error e) => some (.error e)
      | some (.ok restExs) => some (.ok (exs ++ restExs))

/-- `generate_training_data` from `ml_model.py` (the CSV side effect is
ignored): fill each class of `STRUCTURE_CLASSES`, in order, with `n`
accepted examples, starting from stream position 0. -/
def generate_training_data (n length : Nat) (r : Nat → Fin 20) (fuel : Nat) :
    Option (Except PPError (List (List ℚ × StructureClass))) :=
  generate_training_data_aux n length r fuel STRUCTURE_CLASSES 0

/-- The training examples produced for one class from the attempts at the
given stream positions: for each position, the frequency encoding of the
sequence drawn there, labelled with the class. -/
def segmentOf (length : Nat) (r : Nat → Fin 20) (cls : StructureClass)
    (ps : List Nat) : List (List ℚ × StructureClass) :=
  ps.map (fun p => (encodeVec (generate_random_sequence length r p), cls))

/-- Concatenation of per-class segments, one per class in order. -/
def joinedSegments (length : Nat) (r : Nat → Fin 20) :
    List StructureClass → List (List Nat) → List (List ℚ × StructureClass)
  | cls :: classes, ps :: pss =>
    segmentOf length r cls ps ++ joinedSegments length r classes pss
  | _, _ => []

/-- `n` copies of each class, grouped in the order the classes are listed —
the label sequence of a balanced dataset. -/
def joinReplicate (n : Nat) : List StructureClass → List StructureClass
  | [] => []
  | c :: cs => List.replicate n c ++ joinReplicate n cs

/-- The fraction of residues of `s` lying in a given set of letters — the
spec's description of the secondary-structure fractions, stated for
comparison with what the code computes. -/
def specFractionIn (letters s : List Char) : ℚ :=
  ((s.countP (fun c => letters.contains c)) : ℚ) / s.length

/-- The spec §8 example sequence (a 43-residue KRAS fragment). -/
def krasExample : List Char :=
  "MTEYKLVVVGAGGVGKSALTIQLIQNHFVDEYDPTIEDSYRKQ".toList

/-- An adversarial randomness stream: every draw picks index 0, i.e.
alanine, so every generated sequence is all-A. -/
def constAlanine : Nat → Fin 20 := fun _ => 0

section Claims

/-- Rewrites a secondary-structure fraction as a single quotient of the
summed residue counts, so that concrete instances reduce to one Nat
computation and one rational normalization. -/
theorem aaFractionSum_eq_sum_div (letters s : List Char) :
    aaFractionSum letters s
      = ((letters.map (fun c => s.count c)).sum : ℚ) / s.length := by
  induction letters with
  | nil => simp [aaFractionSum]
  | cons c cs ih =>
    simp only [aaFractionSum, List.map_cons, List.sum_cons] at ih ⊢
    rw [ih]
    push_cast
    ring

/-- Evaluation helper: `extract_features` on an already-clean sequence, in
terms of the three summed residue counts. -/
theorem extract_features_eval (s : List Char) (hcount sheetcount coilcount : ℕ)
    (hv : validate_amino_acid_sequence s = .ok s)
    (hne : s.length ≠ 0)
    (hh : (helixLetters.map (fun c => s.count c)).sum = hcount)
    (ht : (turnLetters.map (fun c => s.count c)).sum = sheetcount)
    (hsh : (sheetLetters.map (fun c => s.count c)).sum = coilcount) :
    extract_features s =
      .ok { helix_fraction := (hcount : ℚ) / s.length
            sheet_fraction := (sheetcount : ℚ) / s.length
            coil_fraction := (coilcount : ℚ) / s.length
            sequence_length := s.length
            structure_class :=
              classifyByRule ((hcount : ℚ) / s.length) ((sheetcount : ℚ) / s.length) } := by
  simp only [extract_features, hv, secondary_structure_fraction, if_neg hne,
    aaFractionSum_eq_sum_div, hh, ht, hsh]

/-- C2: for every (H,S) in [0,1]×[0,1] the structural rule classifier picks
exactly one of the five labels by first-match priority — (1) H ≥ 0.5 and
S < 0.3 gives Dominantly-α-helical, (2) S ≥ 0.5 and H < 0.3 gives
Dominantly-β-sheet, (3) 0.3 ≤ H ≤ 0.5 and 0.3 ≤ S ≤ 0.5 gives α/β,
(4) H > 0.3 and S > 0.3 not matched above gives α+β, (5) otherwise
Unstructured/Coil-Dominant — and the boundary points (0.5,0.3), (0.3,0.3)
and (0.3,0.5) take the branch this priority dictates, namely branch 3. -/
theorem c2_rule_classifier_priority (H S : ℚ)
    (_hH0 : 0 ≤ H) (_hH1 : H ≤ 1) (_hS0 : 0 ≤ S) (_hS1 : S ≤ 1) :
    (1/2 ≤ H ∧ S < 3/10 → classifyByRule H S = .dominantlyAlphaHelical)
    ∧ (¬(1/2 ≤ H ∧ S < 3/10) → 1/2 ≤ S ∧ H < 3/10 →
        classifyByRule H S = .dominantlyBetaSheet)
    ∧ (¬(1/2 ≤ H ∧ S < 3/10) → ¬(1/2 ≤ S ∧ H < 3/10) →
        3/10 ≤ H ∧ H ≤ 1/2 ∧ 3/10 ≤ S ∧ S ≤ 1/2 →
        classifyByRule H S = .alphaBeta)
    ∧ (¬(1/2 ≤ H ∧ S < 3/10) → ¬(1/2 ≤ S ∧ H < 3/10) →
        ¬(3/10 ≤ H ∧ H ≤ 1/2 ∧ 3/10 ≤ S ∧ S ≤ 1/2) →
        3/10 < H ∧ 3/10 < S →
        classifyByRule H S = .alphaPlusBeta)
    ∧ (¬(1/2 ≤ H ∧ S < 3/10) → ¬(1/2 ≤ S ∧ H < 3/10) →
        ¬(3/10 ≤ H ∧ H ≤ 1/2 ∧ 3/10 ≤ S ∧ S ≤ 1/2) →
        ¬(3/10 < H ∧ 3/10 < S) →
        classifyByRule H S = .unstructuredCoil)
    ∧ classifyByRule (1/2) (3/10) = .alphaBeta
    ∧ classifyByRule (3/10) (3/10) = .alphaBeta
    ∧ classifyByRule (3/10) (1/2) = .alphaBeta := by
  refine ⟨?_, ?_, ?_, ?_, ?_, ?_, ?_, ?_⟩
  · intro h1
    rw [classifyByRule, if_pos h1]
  · intro h1 h2
    rw [classifyByRule, if_neg h1, if_pos h2]
  · intro h1 h2 h3
    rw [classifyByRule, if_neg h1, if_neg h2, if_pos h3]
  · intro h1 h2 h3 h4
    rw [classifyByRule, if_neg h1, if_neg h2, if_neg h3, if_pos h4]
  · intro h1 h2 h3 h4
    rw [classifyByRule, if_neg h1, if_neg h2, if_neg h3, if_neg h4]
  · norm_num [classifyByRule]
  · norm_num [classifyByRule]
  · norm_num [classifyByRule]

/-- Witness for C2 at the boundary point (H,S) = (0.5,0.3). -/
theorem c2_rule_classifier_priority_witness :
    (0 ≤ (1:ℚ)/2 ∧ (1:ℚ)/2 ≤ 1 ∧ 0 ≤ (3:ℚ)/10 ∧ (3:ℚ)/10 ≤ 1)
    ∧ classifyByRule (1/2) (3/10) = .alphaBeta :=
  ⟨⟨by norm_num, by norm_num, by norm_num, by norm_num⟩,
    (c2_rule_classifier_priority (1/2) (3/10) (by norm_num) (by norm_num)
      (by norm_num) (by norm_num)).2.2.2.2.2.1⟩

/-- C7: validation strips whitespace, upper-cases, accepts exactly when
every remaining character is a standard amino acid, and otherwise fails
naming exactly the set of offending characters; "MKTPR-XXX" fails naming
the two characters minus-sign and X. -/
theorem c7_validator_normalizes_and_reports (seq : List Char) :
    ((∀ c ∈ pyUpper (pyStrip seq), c ∈ STANDARD_AMINO_ACIDS) →
      validate_amino_acid_sequence seq = .ok (pyUpper (pyStrip seq)))
    ∧ ((∃ c ∈ pyUpper (pyStrip seq), c ∉ STANDARD_AMINO_ACIDS) →
      ∃ bad : Finset Char,
        validate_amino_acid_sequence seq = .error (.invalidSequence bad)
        ∧ ∀ c, c ∈ bad ↔ c ∈ pyUpper (pyStrip seq) ∧ c ∉ STANDARD_AMINO_ACIDS)
    ∧ validate_amino_acid_sequence "MKTPR-XXX".toList
        = .error (.invalidSequence {'-', 'X'}) := by
  refine ⟨?_, ?_, by decide⟩
  · intro h
    simp only [validate_amino_acid_sequence]
    rw [if_pos]
    rw [Finset.sdiff_eq_empty_iff_subset]
    intro c hc
    rw [List.mem_toFinset] at hc ⊢
    exact h c hc
  · rintro ⟨c, hc, hcn⟩
    refine ⟨(pyUpper (pyStrip seq)).toFinset \ STANDARD_AMINO_ACIDS.toFinset,
      ?_, ?_⟩
    · simp only [validate_amino_acid_sequence]
      rw [if_neg]
      intro hempty
      have : c ∈ (pyUpper (pyStrip seq)).toFinset \ STANDARD_AMINO_ACIDS.toFinset := by
        rw [Finset.mem_sdiff, List.mem_toFinset, List.mem_toFinset]
        exact ⟨hc, hcn⟩
      rw [hempty] at this
      exact absurd this (Finset.not_mem_empty c)
    · intro a
      rw [Finset.mem_sdiff, List.mem_toFinset, List.mem_toFinset]

/-- Witness for C7 on the spec's example input "MKTPR-XXX". -/
theorem c7_validator_witness :
    ∃ bad : Finset Char,
      validate_amino_acid_sequence "MKTPR-XXX".toList = .error (.invalidSequence bad)
      ∧ ∀ c, c ∈ bad ↔ c ∈ pyUpper (pyStrip "MKTPR-XXX".toList)
          ∧ c ∉ STANDARD_AMINO_ACIDS :=
  (c7_validator_normalizes_and_reports "MKTPR-XXX".toList).2.1 (by decide)

/-- Summing pointwise-added Nat-valued functions over a list. -/
theorem sum_map_add_nat (l : List Char) (f g : Char → ℕ) :
    (l.map (fun x => f x + g x)).sum = (l.map f).sum + (l.map g).sum := by
  induction l with
  | nil => simp
  | cons a t ih => simp [ih]; omega

/-- Summing the indicator of one character over a list counts it. -/
theorem sum_map_indicator (l : List Char) (c : Char) :
    (l.map (fun aa => if aa == c then 1 else 0)).sum = l.count c := by
  induction l with
  | nil => simp
  | cons a t ih =>
    rw [List.map_cons, List.sum_cons, ih, List.count_cons]
    by_cases h : a = c
    · subst h
      simp [Nat.add_comm]
    · simp [h, Ne.symm h]

/-- Every character of `s` lies in the alphabet, so the per-letter counts
over the alphabet sum to the length of `s`. -/
theorem sum_counts_eq_length (s : List Char)
    (hvalid : ∀ c ∈ s, c ∈ AMINO_ACIDS) :
    (AMINO_ACIDS.map (fun aa => s.count aa)).sum = s.length := by
  induction s with
  | nil => decide
  | cons c t ih =>
    have hc : c ∈ AMINO_ACIDS := hvalid c (List.mem_cons_self c t)
    have ht : ∀ a ∈ t, a ∈ AMINO_ACIDS := fun a ha =>
      hvalid a (List.mem_cons_of_mem c ha)
    have hcongr : AMINO_ACIDS.map (fun aa => (c :: t).count aa)
        = AMINO_ACIDS.map (fun aa => t.count aa + if aa == c then 1 else 0) := by
      refine List.map_congr_left (fun aa _ => ?_)
      rw [List.count_cons]
      by_cases h : aa = c
      · simp [h]
      · rw [if_neg (by simp [Ne.symm h]), if_neg (by simp [h])]
    rw [hcongr, sum_map_add_nat, ih ht, sum_map_indicator,
      List.count_eq_one_of_mem (by decide) hc, List.length_cons]

/-- C4: for every non-empty validated sequence the residue-frequency
encoding has exactly 20 entries, one per alphabet letter in canonical
order A,C,D,E,F,G,H,I,K,L,M,N,P,Q,R,S,T,V,W,Y, the i-th entry being
count-of-letter-i divided by the length; every entry lies in [0,1] and the
entries sum exactly to 1 in rational arithmetic. -/
theorem c4_encode_frequency_vector (s : List Char) (hne : s ≠ [])
    (hvalid : ∀ c ∈ s, c ∈ AMINO_ACIDS) :
    (encodeVec s).length = 20
    ∧ (∀ i : Fin 20, (encodeVec s).getD i.val 0
        = (s.count (AMINO_ACIDS.getD i.val 'A') : ℚ) / s.length)
    ∧ (∀ q ∈ encodeVec s, 0 ≤ q ∧ q ≤ 1)
    ∧ (encodeVec s).sum = 1 := by
  have hlen : 0 < s.length := List.length_pos.mpr hne
  refine ⟨by simp [encodeVec, AMINO_ACIDS], ?_, ?_, ?_⟩
  · intro i
    fin_cases i <;> rfl
  · intro q hq
    simp only [encodeVec, List.mem_map] at hq
    obtain ⟨aa, _, rfl⟩ := hq
    constructor
    · positivity
    · rw [div_le_one (by exact_mod_cast hlen)]
      exact_mod_cast List.count_le_length aa s
  · have hsum : (encodeVec s).sum
        = ((AMINO_ACIDS.map (fun aa => s.count aa)).sum : ℚ) / s.length :=
      aaFractionSum_eq_sum_div AMINO_ACIDS s
    rw [hsum, sum_counts_eq_length s hvalid, div_self]
    exact_mod_cast hlen.ne'

/-- Witness for C4 on the one-residue sequence consisting of alanine. -/
theorem c4_encode_frequency_vector_witness :
    (['A'] ≠ ([] : List Char)) ∧ (encodeVec ['A']).length = 20
    ∧ (encodeVec ['A']).sum = 1 :=
  ⟨by decide, (c4_encode_frequency_vector ['A'] (by decide) (by decide)).1,
    (c4_encode_frequency_vector ['A'] (by decide) (by decide)).2.2.2⟩

/-- Every standard amino-acid letter is unaffected by whitespace stripping
and upper-casing. -/
theorem std_letters_fixed :
    ∀ c ∈ STANDARD_AMINO_ACIDS, pyIsSpace c = false ∧ c.toUpper = c := by
  decide

/-- `dropWhile` is the identity on a list none of whose elements satisfy
the predicate. -/
theorem dropWhile_eq_self_of_none {α : Type} {p : α → Bool} :
    ∀ {l : List α}, (∀ c ∈ l, p c = false) → l.dropWhile p = l := by
  intro l h
  cases l with
  | nil => rfl
  | cons a t =>
    rw [List.dropWhile_cons, h a (List.mem_cons_self a t)]
    simp

/-- Normalization fixes sequences made of standard letters: stripping and
upper-casing an already-clean sequence changes nothing. -/
theorem clean_fixed {l : List Char}
    (h : ∀ c ∈ l, c ∈ STANDARD_AMINO_ACIDS) :
    pyUpper (pyStrip l) = l := by
  have hsp : ∀ c ∈ l, pyIsSpace c = false := fun c hc =>
    (std_letters_fixed c (h c hc)).1
  have hstrip : pyStrip l = l := by
    rw [pyStrip, dropWhile_eq_self_of_none hsp,
      dropWhile_eq_self_of_none (fun c hc => hsp c (List.mem_reverse.mp hc)),
      List.reverse_reverse]
  rw [hstrip, pyUpper,
    List.map_congr_left (fun c hc => (std_letters_fixed c (h c hc)).2),
    List.map_id']

/-- The validator accepts an already-clean sequence unchanged. -/
theorem validate_of_clean {l : List Char}
    (h : ∀ c ∈ l, c ∈ STANDARD_AMINO_ACIDS) :
    validate_amino_acid_sequence l = .ok l := by
  simp only [validate_amino_acid_sequence, clean_fixed h]
  rw [if_pos]
  rw [Finset.sdiff_eq_empty_iff_subset]
  intro c hc
  rw [List.mem_toFinset] at hc ⊢
  exact h c hc

/-- C10: `predict` runs the Sequence Guard on its raw input before
encoding, for every classifier state: when the stripped upper-cased form
contains a character outside the alphabet, `predict` fails with the
sequence-validation error naming the offending characters; when it does
not, predicting the raw text is the same as predicting the stripped
upper-cased form. -/
theorem c10_predict_validates_first (st : ClassifierState) (seq : List Char) :
    ((∃ c ∈ pyUpper (pyStrip seq), c ∉ STANDARD_AMINO_ACIDS) →
      predict st seq = .error (.invalidSequence
        ((pyUpper (pyStrip seq)).toFinset \ STANDARD_AMINO_ACIDS.toFinset)))
    ∧ ((∀ c ∈ pyUpper (pyStrip seq), c ∈ STANDARD_AMINO_ACIDS) →
      predict st seq = predict st (pyUpper (pyStrip seq))) := by
  constructor
  · rintro ⟨c, hc, hcn⟩
    have hval : validate_amino_acid_sequence seq = .error (.invalidSequence
        ((pyUpper (pyStrip seq)).toFinset \ STANDARD_AMINO_ACIDS.toFinset)) := by
      simp only [validate_amino_acid_sequence]
      rw [if_neg]
      intro hempty
      have hmem : c ∈ (pyUpper (pyStrip seq)).toFinset
          \ STANDARD_AMINO_ACIDS.toFinset := by
        rw [Finset.mem_sdiff, List.mem_toFinset, List.mem_toFinset]
        exact ⟨hc, hcn⟩
      rw [hempty] at hmem
      exact absurd hmem (Finset.not_mem_empty c)
    rw [predict, hval]
  · intro h
    have hval : validate_amino_acid_sequence seq = .ok (pyUpper (pyStrip seq)) := by
      simp only [validate_amino_acid_sequence]
      rw [if_pos]
      rw [Finset.sdiff_eq_empty_iff_subset]
      intro c hc
      rw [List.mem_toFinset] at hc ⊢
      exact h c hc
    rw [predict, hval, predict, validate_of_clean h]

/-- Witness for C10: the fresh classifier and the raw input
" mktpr-xxx" (leading space, lower case, offending characters). -/
theorem c10_predict_validates_first_witness :
    (∃ c ∈ pyUpper (pyStrip " mktpr-xxx".toList), c ∉ STANDARD_AMINO_ACIDS)
    ∧ predict .fresh " mktpr-xxx".toList = .error (.invalidSequence
        ((pyUpper (pyStrip " mktpr-xxx".toList)).toFinset
          \ STANDARD_AMINO_ACIDS.toFinset)) :=
  ⟨by decide,
    (c10_predict_validates_first .fresh " mktpr-xxx".toList).1 (by decide)⟩

/-- C1 (divergence witnessed on input "EMAL", whose four residues all lie
in the spec's sheet set and none in its turn set): `extract_features`
returns sheet_fraction 0 and coil_fraction 1 on it, because line 56 of
`feature_extractor.py` unpacks Biopython's (helix, turn, sheet) triple as
(helix_fraction, sheet_fraction, coil_fraction) — so sheet_fraction holds
the fraction of residues in the turn set N,P,G,S and coil_fraction the
fraction in the sheet set E,M,A,L, while the claim (and the code's own
docstring) require sheet_fraction to be the E,M,A,L fraction. -/
theorem c1_fractions_swapped_on_emal :
    extract_features "EMAL".toList
      = .ok { helix_fraction := 1/4
              sheet_fraction := 0
              coil_fraction := 1
              sequence_length := 4
              structure_class := .unstructuredCoil }
    ∧ specFractionIn sheetLetters "EMAL".toList = 1
    ∧ specFractionIn turnLetters "EMAL".toList = 0
    ∧ specFractionIn helixLetters "EMAL".toList = 1/4 := by
  have h1 : ("EMAL".toList.countP (fun c => sheetLetters.contains c)) = 4 := by
    decide
  have h2 : ("EMAL".toList.countP (fun c => turnLetters.contains c)) = 0 := by
    decide
  have h3 : ("EMAL".toList.countP (fun c => helixLetters.contains c)) = 1 := by
    decide
  refine ⟨?_, ?_, ?_, ?_⟩
  · rw [extract_features_eval "EMAL".toList 1 0 4 (by decide) (by decide)
      (by decide) (by decide) (by decide)]
    norm_num [classifyByRule]
  · simp only [specFractionIn, h1]
    norm_num
  · simp only [specFractionIn, h2]
    norm_num
  · simp only [specFractionIn, h3]
    norm_num

/-- C3 (divergence witnessed on the empty input and on whitespace-only
input): the validator accepts them, returning the cleaned empty sequence,
and the profile and encode operations then fail with the division-by-zero
error, which is a different error from InvalidSequenceError. -/
theorem c3_empty_not_invalid_sequence_error :
    validate_amino_acid_sequence [] = .ok []
    ∧ validate_amino_acid_sequence "   ".toList = .ok []
    ∧ extract_features [] = .error .zeroDivision
    ∧ extract_features "   ".toList = .error .zeroDivision
    ∧ encodeOp [] = .error .zeroDivision
    ∧ encodeOp "   ".toList = .error .zeroDivision
    ∧ ∀ bad : Finset Char, PPError.zeroDivision ≠ PPError.invalidSequence bad := by
  refine ⟨by decide, by decide, by decide, by decide, by decide, by decide, ?_⟩
  intro bad h
  exact PPError.noConfusion h

/-- C8 counterexample: with exactly one persisted artifact present (either
way round), construction does not surface any error — it silently creates
a fresh model, behaving identically to the no-persisted-state case. -/
theorem c8_partial_state_counterexample :
    classifierInit true false = .freshModel
    ∧ classifierInit false true = .freshModel
    ∧ classifierInit true false = classifierInit false false
    ∧ classifierInit false true = classifierInit false false := by
  decide

/-- C8 amended: construction loads the persisted pair exactly when both
artifact files are present, and in every other case — including exactly
one artifact present — it silently creates a fresh model; no persistence
error is ever surfaced. -/
theorem c8_pair_presence_decides_load (modelFileExists scalerFileExists : Bool) :
    (classifierInit modelFileExists scalerFileExists = .loadedPretrained
      ↔ modelFileExists = true ∧ scalerFileExists = true)
    ∧ (classifierInit modelFileExists scalerFileExists = .freshModel
      ↔ ¬(modelFileExists = true ∧ scalerFileExists = true)) := by
  revert modelFileExists scalerFileExists
  decide

/-- C9 counterexample: the example sequence has 43 residues, not 44 — the
profile's sequence_length is 43. -/
theorem c9_length_counterexample :
    (extract_features krasExample).toOption.map Features.sequence_length = some 43
    ∧ (extract_features krasExample).toOption.map Features.sequence_length
        ≠ some 44 := by
  rw [extract_features_eval krasExample 15 8 9 (by decide) (by decide)
    (by decide) (by decide) (by decide)]
  refine ⟨rfl, ?_⟩
  intro h
  simp only [Except.toOption, Option.map_some] at h
  exact absurd (Option.some.inj h) (by decide)

/-- C9 amended: the example sequence validates without error, its profile
has sequence_length 43, and the rule classifier assigns it a
StructureClass (here Unstructured/Coil-Dominant). -/
theorem c9_kras_example_profile :
    validate_amino_acid_sequence krasExample = .ok krasExample
    ∧ extract_features krasExample
        = .ok { helix_fraction := 15/43
                sheet_fraction := 8/43
                coil_fraction := 9/43
                sequence_length := 43
                structure_class := .unstructuredCoil }
    ∧ StructureClass.unstructuredCoil ∈ STRUCTURE_CLASSES := by
  refine ⟨by decide, ?_, by decide⟩
  rw [extract_features_eval krasExample 15 8 9 (by decide) (by decide)
    (by decide) (by decide) (by decide)]
  have hlen : krasExample.length = 43 := by decide
  rw [hlen]
  norm_num [classifyByRule]

/-- A generated sequence has the requested length. -/
theorem generate_random_sequence_length (length : Nat) (r : Nat → Fin 20)
    (pos : Nat) : (generate_random_sequence length r pos).length = length := by
  simp [generate_random_sequence]

/-- Feature extraction only succeeds on a generated sequence when the
requested length is positive (the zero-length draw is the empty sequence,
on which the per-residue percentages divide by zero). -/
theorem extract_ok_gen_length_pos {length : Nat} {r : Nat → Fin 20}
    {pos : Nat} {feats : Features}
    (h : extract_features (generate_random_sequence length r pos) = .ok feats) :
    length ≠ 0 := by
  intro hL
  subst hL
  have hnil : generate_random_sequence 0 r pos = [] := rfl
  rw [hnil, show extract_features ([] : List Char) = .error .zeroDivision from
    by decide] at h
  exact Except.noConfusion h

/-- Invariant of the per-class rejection-sampling loop: a successful run of
`fillClass` accepts exactly `need` attempts, at strictly increasing stream
positions at or after the starting position, each accepted example being
the encoding of the sequence drawn at its position, labelled with the
class, which is exactly the rule label `extract_features` assigned to that
sequence. -/
theorem fillClass_ok_spec (cls : StructureClass) (length : Nat)
    (r : Nat → Fin 20) :
    ∀ (fuel need pos : Nat) (exs : List (List ℚ × StructureClass)) (pos' : Nat),
      fillClass cls length r need pos fuel = some (.ok (exs, pos')) →
      ∃ ps : List Nat,
        ps.length = need
        ∧ ps.Chain' (· < ·)
        ∧ (∀ p ∈ ps, pos ≤ p)
        ∧ exs = segmentOf length r cls ps
        ∧ ∀ p ∈ ps, ∃ feats,
            extract_features (generate_random_sequence length r p) = .ok feats
            ∧ feats.structure_class = cls := by
  intro fuel
  induction fuel with
  | zero =>
    intro need pos exs pos' h
    cases need with
    | zero =>
      simp only [fillClass, Option.some.injEq, Except.ok.injEq,
        Prod.mk.injEq] at h
      obtain ⟨hexs, _⟩ := h
      exact ⟨[], rfl, List.chain'_nil, by simp, by simp [segmentOf, hexs],
        by simp⟩
    | succ k => exact Option.noConfusion h
  | succ f ih =>
    intro need pos exs pos' h
    cases need with
    | zero =>
      simp only [fillClass, Option.some.injEq, Except.ok.injEq,
        Prod.mk.injEq] at h
      obtain ⟨hexs, _⟩ := h
      exact ⟨[], rfl, List.chain'_nil, by simp, by simp [segmentOf, hexs],
        by simp⟩
    | succ k =>
      rw [fillClass] at h
      cases hx : extract_features (generate_random_sequence length r pos) with
      | error e =>
        rw [hx] at h
        simp only [Option.some.injEq] at h
        exact Except.noConfusion h
      | ok feats =>
        rw [hx] at h
        simp only at h
        by_cases hcls : feats.structure_class = cls
        · rw [if_pos hcls] at h
          cases hrec : fillClass cls length r k (pos + length) f with
          | none => rw [hrec] at h; exact Option.noConfusion h
          | some res =>
            cases res with
            | error e =>
              rw [hrec] at h
              simp only [Option.some.injEq] at h
              exact Except.noConfusion h
            | ok rp =>
              obtain ⟨rest, q⟩ := rp
              rw [hrec] at h
              simp only [Option.some.injEq, Except.ok.injEq,
                Prod.mk.injEq] at h
              obtain ⟨hexs, hq⟩ := h
              obtain ⟨ps, hlen, hchain, hlb, hseg, hfeats⟩ := ih k (pos + length) rest q hrec
              have hLpos : length ≠ 0 := extract_ok_gen_length_pos hx
              refine ⟨pos :: ps, by simp [hlen], ?_, ?_, ?_, ?_⟩
              · rw [List.chain'_cons']
                refine ⟨?_, hchain⟩
                intro y hy
                have hymem : y ∈ ps := List.mem_of_mem_head? hy
                have : pos + length ≤ y := hlb y hymem
                omega
              · intro p hp
                rcases List.mem_cons.mp hp with hp | hp
                · omega
                · have := hlb p hp
                  omega
              · rw [← hexs, hseg]
                simp [segmentOf, hcls]
              · intro p hp
                rcases List.mem_cons.mp hp with hp | hp
                · subst hp
                  exact ⟨feats, hx, hcls⟩
                · exact hfeats p hp
        · rw [if_neg hcls] at h
          obtain ⟨ps, hlen, hchain, hlb, hseg, hfeats⟩ :=
            ih (k + 1) (pos + length) exs pos' h
          refine ⟨ps, hlen, hchain, ?_, hseg, hfeats⟩
          intro p hp
          have := hlb p hp
          omega

/-- The labels of one class's segment are that class, repeated once per
accepted attempt. -/
theorem map_snd_segmentOf (length : Nat) (r : Nat → Fin 20)
    (cls : StructureClass) (ps : List Nat) :
    (segmentOf length r cls ps).map Prod.snd = List.replicate ps.length cls := by
  induction ps with
  | nil => rfl
  | cons p t ih =>
    rw [List.length_cons, List.replicate_succ, ← ih]
    rfl

/-- Invariant of the outer per-class loop: a successful run over a list of
classes yields the concatenation of per-class segments, one segment per
class in listed order, each consisting of `n` accepted examples taken at
strictly increasing stream positions and labelled with the rule label of
the drawn sequence. -/
theorem generate_training_data_aux_ok_spec (n length : Nat)
    (r : Nat → Fin 20) (fuel : Nat) :
    ∀ (classes : List StructureClass) (pos : Nat)
      (d : List (List ℚ × StructureClass)),
      generate_training_data_aux n length r fuel classes pos = some (.ok d) →
      ∃ pss : List (List Nat),
        pss.length = classes.length
        ∧ (∀ ps ∈ pss, ps.length = n ∧ ps.Chain' (· < ·))
        ∧ d = joinedSegments length r classes pss
        ∧ List.Forall₂ (fun cls ps => ∀ p ∈ ps, ∃ feats,
            extract_features (generate_random_sequence length r p) = .ok feats
            ∧ feats.structure_class = cls) classes pss := by
  intro classes
  induction classes with
  | nil =>
    intro pos d h
    simp only [generate_training_data_aux, Option.some.injEq,
      Except.ok.injEq] at h
    exact ⟨[], rfl, by simp, by simp [joinedSegments, ← h], List.Forall₂.nil⟩
  | cons cls rest ihc =>
    intro pos d h
    rw [generate_training_data_aux] at h
    cases hf : fillClass cls length r n pos fuel with
    | none => rw [hf] at h; exact Option.noConfusion h
    | some res =>
      cases res with
      | error e =>
        rw [hf] at h
        simp only [Option.some.injEq] at h
        exact Except.noConfusion h
      | ok ep =>
        obtain ⟨exs, pos'⟩ := ep
        rw [hf] at h
        simp only at h
        cases hg : generate_training_data_aux n length r fuel rest pos' with
        | none => rw [hg] at h; exact Option.noConfusion h
        | some res2 =>
          cases res2 with
          | error e =>
            rw [hg] at h
            simp only [Option.some.injEq] at h
            exact Except.noConfusion h
          | ok restExs =>
            rw [hg] at h
            simp only [Option.some.injEq, Except.ok.injEq] at h
            obtain ⟨ps, hlen, hchain, _, hseg, hfeats⟩ :=
              fillClass_ok_spec cls length r fuel n pos exs pos' hf
            obtain ⟨pss, hlen2, hprops, hjoin, hforall⟩ :=
              ihc pos' restExs hg
            refine ⟨ps :: pss, by simp [hlen2], ?_, ?_, ?_⟩
            · intro q hq
              rcases List.mem_cons.mp hq with hq | hq
              · subst hq
                exact ⟨hlen, hchain⟩
              · exact hprops q hq
            · rw [← h, hseg, hjoin]
              rfl
            · exact List.Forall₂.cons hfeats hforall

/-- C5: when `generate_training_data` returns a dataset, the dataset's
label sequence is exactly `n` copies of each of the five classes, grouped
by class in `STRUCTURE_CLASSES` enumeration order; moreover the dataset is
the concatenation of five per-class segments, one per class in that order,
each holding `n` examples taken at strictly increasing stream positions
(generation order), where every example is the frequency encoding of the
sequence drawn at its position and its stored label is the structure class
`extract_features` (the rule classifier) assigned to that sequence. -/
theorem c5_generator_balanced_and_rule_labelled (n length : Nat)
    (r : Nat → Fin 20) (fuel : Nat) (d : List (List ℚ × StructureClass))
    (h : generate_training_data n length r fuel = some (.ok d)) :
    d.map Prod.snd = joinReplicate n STRUCTURE_CLASSES
    ∧ ∃ pss : List (List Nat),
        pss.length = STRUCTURE_CLASSES.length
        ∧ (∀ ps ∈ pss, ps.length = n ∧ ps.Chain' (· < ·))
        ∧ d = joinedSegments length r STRUCTURE_CLASSES pss
        ∧ List.Forall₂ (fun cls ps => ∀ p ∈ ps, ∃ feats,
            extract_features (generate_random_sequence length r p) = .ok feats
            ∧ feats.structure_class = cls) STRUCTURE_CLASSES pss := by
  obtain ⟨pss, hlen, hprops, hjoin, hforall⟩ :=
    generate_training_data_aux_ok_spec n length r fuel STRUCTURE_CLASSES 0 d h
  refine ⟨?_, pss, hlen, hprops, hjoin, hforall⟩
  have hgen : ∀ (classes : List StructureClass) (pss' : List (List Nat)),
      pss'.length = classes.length → (∀ ps ∈ pss', ps.length = n) →
      (joinedSegments length r classes pss').map Prod.snd
        = joinReplicate n classes := by
    intro classes
    induction classes with
    | nil =>
      intro pss' hl _
      rw [List.length_nil, List.length_eq_zero] at hl
      subst hl
      rfl
    | cons cls rest ihc =>
      intro pss' hl hn
      cases pss' with
      | nil => exact absurd hl.symm (by simp)
      | cons ps pst =>
        simp only [List.length_cons, Nat.succ.injEq] at hl
        rw [joinedSegments, joinReplicate, List.map_append,
          map_snd_segmentOf, hn ps (List.mem_cons_self ps pst),
          ihc pst hl (fun q hq => hn q (List.mem_cons_of_mem ps hq))]
  rw [hjoin]
  exact hgen STRUCTURE_CLASSES pss hlen (fun ps hps => (hprops ps hps).1)

/-- Witness for C5: the degenerate run with zero samples per class
returns the empty balanced dataset. -/
theorem c5_generator_balanced_and_rule_labelled_witness :
    ([] : List (List ℚ × StructureClass)).map Prod.snd
        = joinReplicate 0 STRUCTURE_CLASSES
    ∧ ∃ pss : List (List Nat),
        pss.length = STRUCTURE_CLASSES.length
        ∧ (∀ ps ∈ pss, ps.length = 0 ∧ ps.Chain' (· < ·))
        ∧ ([] : List (List ℚ × StructureClass))
            = joinedSegments 7 (fun _ => 0) STRUCTURE_CLASSES pss
        ∧ List.Forall₂ (fun cls ps => ∀ p ∈ ps, ∃ feats,
            extract_features (generate_random_sequence 7 (fun _ => 0) p) = .ok feats
            ∧ feats.structure_class = cls) STRUCTURE_CLASSES pss :=
  c5_generator_balanced_and_rule_labelled 0 7 (fun _ => 0) 3 [] rfl

/-- Every length-5 draw from the all-alanine stream is "AAAAA". -/
theorem gen_constAlanine (pos : Nat) :
    generate_random_sequence 5 constAlanine pos = "AAAAA".toList := rfl

/-- "AAAAA" profiles to helix 0, turn 0 (the code's sheet_fraction),
sheet 1 (the code's coil_fraction) and is rule-classified
Unstructured/Coil-Dominant. -/
theorem extract_features_AAAAA :
    extract_features "AAAAA".toList
      = .ok { helix_fraction := 0
              sheet_fraction := 0
              coil_fraction := 1
              sequence_length := 5
              structure_class := .unstructuredCoil } := by
  rw [extract_features_eval "AAAAA".toList 0 0 5 (by decide) (by decide)
    (by decide) (by decide) (by decide)]
  norm_num [classifyByRule]

/-- On the all-alanine stream, the loop filling the Dominantly-α-helical
class rejects every draw: after any number of loop iterations it has still
produced nothing. -/
theorem fillClass_constAlanine_stuck :
    ∀ (fuel pos : Nat),
      fillClass .dominantlyAlphaHelical 5 constAlanine 1 pos fuel = none := by
  intro fuel
  induction fuel with
  | zero => intro pos; rfl
  | succ f ih =>
    intro pos
    rw [fillClass, gen_constAlanine, extract_features_AAAAA]
    simp only
    rw [if_neg (by decide)]
    exact ih (pos + 5)

/-- C6 counterexample: `generate_training_data` takes no attempt bound and
no timeout is ever signalled; on the all-alanine stream, requesting one
example per class at sequence length 5 is still running after 200 loop
iterations of the first class's rejection loop (every draw is rejected). -/
theorem c6_counterexample_unbounded :
    generate_training_data 1 5 constAlanine 200 = none := by
  rw [generate_training_data, STRUCTURE_CLASSES, generate_training_data_aux,
    fillClass_constAlanine_stuck 200 0]

/-- C6 amended: the rejection-sampling loop of `generate_training_data` is
unbounded — the function accepts no max-attempts parameter and never
returns a timeout value; on the all-alanine stream (which never produces a
Dominantly-α-helical sequence) the step-indexed run is still pending at
every step bound, i.e. the Python loop never terminates. -/
theorem c6_no_max_attempts_never_terminates (fuel : Nat) :
    generate_training_data 1 5 constAlanine fuel = none := by
  rw [generate_training_data, STRUCTURE_CLASSES, generate_training_data_aux,
    fillClass_constAlanine_stuck fuel 0]

end Claims
